import Mathlib

/-!
Shallow embedding of django-partial-state (src/partial_state/models.py and
src/partial_state/manager.py): the schema-derivation algorithm
(PartialStateRecord.copy_fields / create_state_model), the expiry default
(ExpiryDefault), the staging-store query surface (PartialObjectManager) and
the promotion protocol (PartialStateMixin.wrap / shelve), together with the
Django collaborator behaviour these methods rely on (field bookkeeping in
Options.add_field, ForeignKey.deconstruct, Model.__init__ defaults, queryset
filtering, latest(), and transaction.atomic), modelled at the interface
boundary.  Values stored in columns are modelled as Int; SQL NULL / Python
None is Option.none.
-/

namespace PartialState

/-- Kind of a Django model field, as far as the isinstance checks in
models.py distinguish them: models.AutoField, ordinary concrete fields,
models.ForeignKey, models.OneToOneField (a ForeignKey subclass) and
models.ManyToManyField. -/
inductive FieldKind where
  | auto
  | plain
  | foreignKey
  | oneToOne
  | manyToMany
  deriving DecidableEq, Repr

/-- A field descriptor: the attributes of a Django field that models.py
reads or writes.  `unique` is the explicitly declared flag (Django's
`_unique`); the primary-key implied uniqueness is the property
`Field.uniqueProp` below.  `to` is the reference target of a relational
field: the string form Django keeps before lazy resolution, with the literal
"self" for a self-reference (empty for non-relational fields).
`parent_link` marks the implicit one-to-one of multi-table inheritance. -/
structure Field where
  name : String
  kind : FieldKind
  primary_key : Bool
  null : Bool
  unique : Bool
  db_index : Bool
  to_ref : String
  parent_link : Bool
  deriving DecidableEq, Repr

/-- Django's Field.attname: the name of the attribute holding the raw column
value; for a ForeignKey (and OneToOneField) it is name + "_id". -/
def Field.attname (f : Field) : String :=
  if f.kind = .foreignKey ∨ f.kind = .oneToOne then f.name ++ "_id" else f.name

/-- Django's Field.unique property: `self._unique or self.primary_key`. -/
def Field.uniqueProp (f : Field) : Bool :=
  f.unique || f.primary_key

/-- A target model as models.py consumes it: Django's Options keeps local
many-to-many fields apart from the other local fields (`Options.add_field`
routes a field with `many_to_many = True` into `local_many_to_many`, every
other field into `local_fields`).  `label` identifies the model class (what a
resolved foreign-key reference points at), `parents` is
`len(model._meta.parents)`, the number of multi-table-inheritance parents. -/
structure Model where
  label : String
  db_table : String
  local_fields : List Field
  local_many_to_many : List Field
  parents : Nat
  deriving DecidableEq, Repr

/-- Build a Model from the declared field list the way Django's
Options.add_field registers fields: many-to-many declarations go to
`local_many_to_many`, everything else to `local_fields`. -/
def mkModel (label db_table : String) (parents : Nat) (declared : List Field) :
    Model where
  label := label
  db_table := db_table
  local_fields := declared.filter (fun f => decide (f.kind ≠ .manyToMany))
  local_many_to_many := declared.filter (fun f => decide (f.kind = .manyToMany))
  parents := parents

/-- Django's Options.local_concrete_fields: the concrete members of
`local_fields`.  Many-to-many fields are kept in `local_many_to_many` and are
not concrete, so they never occur here; every other field kind in this
embedding has a database column and is concrete. -/
def Model.local_concrete_fields (m : Model) : List Field :=
  m.local_fields

/-- Django's Options.pk for this embedding: the (first) local field flagged
primary_key.  (For a multi-table-inheritance child this is the parent-link
one-to-one, which Django stores as a local field.) -/
def Model.pkField (m : Model) : Option Field :=
  m.local_fields.find? (fun f => f.primary_key)

/-- The errors PartialStateRecord.copy_fields can raise:
ValueError("ManyToManyFields are not supported."), the spec's
UnsupportedFieldKind, and the AttributeError raised by the statement
`field.unique = False` - Django's Field.unique is a read-only property
(`return self._unique or self.primary_key`, without a setter), so assigning
to it fails. -/
inductive DeriveError where
  | unsupportedFieldKind
  | attributeError
  deriving DecidableEq, Repr

/-- Lines 218-221 of models.py: demote a primary key
(`field.primary_key = False`), force every other field nullable
(`field.null = True`). -/
def demote (field : Field) : Field :=
  if field.primary_key then { field with primary_key := false }
  else { field with null := true }

/-- Lines 223-265 of models.py: deconstruct-and-rebuild of a foreign key.
`field.deconstruct()` yields kwargs carrying to, null, db_index and the
explicit unique flag  - except that OneToOneField.deconstruct drops `unique`
(it is implied by the class, and the code instantiates the rebuilt field as a
plain ForeignKey, so the implied uniqueness is lost).  The code then forces
`related_name='+'`, `serialize=True`, `auto_created=False`,
`parent_link=False`, and rewrites `to == 'self'` to `field.model`, the
wrapped target model class (at class_prepared time the lazy 'self' reference
has not yet been resolved, so deconstruct still reports the literal 'self').
The swappable save/restore around deconstruct() has no effect on the
resulting field and is not modelled. -/
def rebuild_fk (m : Model) (f : Field) : Field where
  name := f.name
  kind := .foreignKey
  primary_key := f.primary_key
  null := f.null
  unique := if f.kind = .oneToOne then false else f.unique
  db_index := f.db_index
  to_ref := if f.to_ref = "self" then m.label else f.to_ref
  parent_link := false

/-- The per-field transform of the copy_fields loop body (after the
many-to-many and AutoField tests): demote / force-nullable, then either the
ForeignKey rebuild (OneToOneField included: it is an isinstance ForeignKey)
or, `elif field.unique:`, attempt `field.unique = False; field.db_index =
True`.  The intent is to swap the uniqueness constraint for a non-unique
index, but Field.unique has no setter, so the first assignment raises
AttributeError and the branch never completes (the guard reads the unique
property on the mutated copy, whose primary_key is already False, so it
fires exactly on an explicit unique flag). -/
def copy_field (m : Model) (field : Field) : Except DeriveError Field :=
  let f := demote field
  if f.kind = .foreignKey ∨ f.kind = .oneToOne then .ok (rebuild_fk m f)
  else if f.uniqueProp then .error .attributeError
  else .ok f

/-- The copy_fields loop over a field list: raise on a many-to-many field,
skip an AutoField, otherwise run the loop body - an exception from it
aborts the whole derivation. -/
def copy_fields_list (m : Model) : List Field → Except DeriveError (List Field)
  | [] => .ok []
  | f :: fs =>
    if f.kind = .manyToMany then .error .unsupportedFieldKind
    else if f.kind = .auto then copy_fields_list m fs
    else
      match copy_field m f with
      | .ok f2 =>
        match copy_fields_list m fs with
        | .ok rest => .ok (f2 :: rest)
        | .error e => .error e
      | .error e => .error e

/-- PartialStateRecord.copy_fields(model): the loop runs over
`model._meta.local_concrete_fields`. -/
def copy_fields (m : Model) : Except DeriveError (List Field) :=
  copy_fields_list m m.local_concrete_fields

/-- The ExpiryDefault callable of models.py, embedded with its Python
attribute dictionary: `__init__` stores the constructor argument under the
attribute name "lifetime" (`self.lifetime = lifetime`). -/
structure ExpiryDefault where
  attrs : List (String × Int)
  deriving DecidableEq, Repr

/-- ExpiryDefault.__init__(self, lifetime): `self.lifetime = lifetime`. -/
def ExpiryDefault.init (lifetime : Int) : ExpiryDefault :=
  ⟨[("lifetime", lifetime)]⟩

/-- Python exceptions surfacing from attribute access. -/
inductive PyError where
  | attributeError
  deriving DecidableEq, Repr

/-- Python attribute lookup on an attribute dictionary: None-like failure is
Option.none (an absent attribute raises AttributeError at the access site). -/
def py_getattr (attrs : List (String × Int)) (name : String) : Option Int :=
  match attrs.find? (fun p => decide (p.1 = name)) with
  | some p => some p.2
  | none => none

/-- ExpiryDefault.__call__(self): `return timezone.now() + self.state_lifetime`.
The attribute read is `state_lifetime`, looked up on the instance's attribute
dictionary; an absent attribute raises AttributeError. -/
def ExpiryDefault.call (d : ExpiryDefault) (now : Int) : Except PyError Int :=
  match py_getattr d.attrs "state_lifetime" with
  | some lt => .ok (now + lt)
  | none => .error .attributeError

/-- The derived partial-state model: the cloned field list, the wrapped
target, the `_state_expires` flag, the captured ExpiryDefault instance (the
default of the partial_state_expiry column, present iff a state_lifetime was
given), and the Meta options set by state_model_meta_options. -/
structure StagingSchema where
  wrapped_model : Model
  fields : List Field
  state_expires : Bool
  expiry_default : Option ExpiryDefault
  db_table : String
  ordering : List String
  get_latest_by : String
  deriving DecidableEq, Repr

/-- PartialStateRecord.create_state_model, given the configuration of
PartialStateRecord.__init__ (state_lifetime, db_table): clone the fields via
copy_fields, add the synthetic partial_state_id AutoField primary key and,
when a lifetime is configured, the partial_state_expiry DateTimeField whose
default is ExpiryDefault(state_lifetime); Meta gets the db_table (the
wrapped table name + "_partialstate" when not configured), descending
ordering by partial_state_id and get_latest_by = partial_state_id. -/
def create_state_model (state_lifetime : Option Int) (db_table : Option String)
    (m : Model) : Except DeriveError StagingSchema :=
  (copy_fields m).map fun fs =>
    { wrapped_model := m
      fields := fs
      state_expires := state_lifetime.isSome
      expiry_default := state_lifetime.map ExpiryDefault.init
      db_table := db_table.getD (m.db_table ++ "_partialstate")
      ordering := ["-partial_state_id"]
      get_latest_by := "partial_state_id" }

/-- A row of the staging table: the synthetic primary key (None while
unsaved), the optional expiry timestamp column, and the values of the cloned
columns keyed by attname (an absent key reads as NULL, like an unset
nullable column). -/
structure StagingRecord where
  partial_state_id : Option Nat
  partial_state_expiry : Option Int
  values : List (String × Option Int)
  deriving DecidableEq, Repr

/-- Read a column value from an attname-keyed value list; absent keys are
NULL. -/
def getv (vs : List (String × Option Int)) (k : String) : Option Int :=
  match vs.find? (fun p => decide (p.1 = k)) with
  | some p => p.2
  | none => none

/-- Write a column value into an attname-keyed value list. -/
def setv (vs : List (String × Option Int)) (k : String) (v : Option Int) :
    List (String × Option Int) :=
  (k, v) :: vs.filter (fun p => decide (p.1 ≠ k))

/-- An in-memory instance of the wrapped (permanent) model: its attribute
values keyed by attname. -/
structure Instance where
  values : List (String × Option Int)
  deriving DecidableEq, Repr

/-- Errors surfacing from PartialObjectManager methods: the TypeError of
purge_expired, Django's FieldError for a filter keyword that is not a field
of the model (raised while the queryset is built, before any row is read),
and DoesNotExist from .get()/.latest() on an empty result. -/
inductive ManagerError where
  | typeError
  | fieldError
  | doesNotExist
  deriving DecidableEq, Repr

/-- The SQL predicate `partial_state_expiry >= Now()` used by
PartialObjectManager.get_queryset: a NULL expiry compares as unknown and the
row is filtered out. -/
def kept_by_expiry_filter (now : Int) (r : StagingRecord) : Bool :=
  match r.partial_state_expiry with
  | some e => decide (now ≤ e)
  | none => false

/-- PartialObjectManager.get_queryset: the whole table when the model does
not expire, otherwise only rows with partial_state_expiry >= Now(). -/
def get_queryset (s : StagingSchema) (now : Int) (rows : List StagingRecord) :
    List StagingRecord :=
  if s.state_expires then rows.filter (kept_by_expiry_filter now) else rows

/-- The SQL predicate `partial_state_expiry < Now()` used by purge_expired:
a NULL expiry compares as unknown and the row is not matched. -/
def expiry_lt_now (now : Int) (r : StagingRecord) : Bool :=
  match r.partial_state_expiry with
  | some e => decide (e < now)
  | none => false

/-- PartialObjectManager.purge_expired: raise TypeError when the state model
does not use expiry timestamps (the table is then untouched); otherwise
delete, from the unscoped queryset (`super().get_queryset()`, not the
active-filtered one), every row with partial_state_expiry < Now().  Returns
the table after the call together with the error, if any. -/
def purge_expired (s : StagingSchema) (now : Int) (rows : List StagingRecord) :
    List StagingRecord × Option ManagerError :=
  if s.state_expires then
    (rows.filter (fun r => ! expiry_lt_now now r), none)
  else (rows, some .typeError)

/-- The names a queryset filter keyword on the staging model can resolve to:
the cloned fields (by name and by attname), the synthetic partial_state_id,
and partial_state_expiry when present.  Any other keyword raises FieldError. -/
def staging_lookup_names (s : StagingSchema) : List String :=
  s.fields.map Field.name ++ s.fields.map Field.attname ++
    ["partial_state_id"] ++
    (if s.state_expires then ["partial_state_expiry"] else [])

/-- The partial_state_id a saved row carries (0 for an unsaved row; rows of
the stored table always carry one). -/
def sid (r : StagingRecord) : Nat :=
  r.partial_state_id.getD 0

/-- QuerySet.latest() under Meta.get_latest_by = partial_state_id: the row
with the greatest partial_state_id, none on an empty queryset. -/
def latest_rec : List StagingRecord → Option StagingRecord
  | [] => none
  | r :: rs =>
    match latest_rec rs with
    | none => some r
    | some b => if sid b < sid r then some r else some b

/-- PartialObjectManager.by_true_pk(pk): filter the active queryset on the
wrapped model's primary-key attname and take latest().  The filter keyword is
resolved against the staging model's fields first: a keyword that is no field
of the staging model raises FieldError before any row is consulted. -/
def by_true_pk (s : StagingSchema) (now : Int) (rows : List StagingRecord)
    (pk : Int) : Except ManagerError StagingRecord :=
  match s.wrapped_model.pkField with
  | none => .error .fieldError
  | some p =>
    if p.attname ∈ staging_lookup_names s then
      match latest_rec ((get_queryset s now rows).filter
          (fun r => decide (getv r.values p.attname = some pk))) with
      | some r => .ok r
      | none => .error .doesNotExist
    else .error .fieldError

/-- The values dictionary PartialObjectDescriptor.__get__ collects from a
wrapped-model instance: `getattr(instance, f.attname)` for every local
concrete field that is not an AutoField. -/
def descriptor_get_values (m : Model) (inst : Instance) :
    List (String × Option Int) :=
  (m.local_concrete_fields.filter (fun f => decide (f.kind ≠ .auto))).map
    (fun f => (f.attname, getv inst.values f.attname))

/-- PartialObjectDescriptor.__get__ with a non-None instance:
`self.state_model(**values)`.  Django's Model.__init__ evaluates
field.get_default() for every field missing from the kwargs: partial_state_id
(AutoField) defaults to None, and partial_state_expiry, when the schema has
one, calls its ExpiryDefault instance - an exception from that call
propagates out of the constructor. -/
def descriptor_get_instance (s : StagingSchema) (now : Int) (inst : Instance) :
    Except PyError StagingRecord :=
  let vals := descriptor_get_values s.wrapped_model inst
  match s.expiry_default with
  | none => .ok ⟨none, none, vals⟩
  | some d =>
    match d.call now with
    | .ok t => .ok ⟨none, some t, vals⟩
    | .error e => .error e

/-- PartialStateMixin.wrap with populate_relations=False: collect
`getattr(self, f.attname)` for every field of
`model._meta.get_fields(include_parents=False)` that is not an AutoField and
construct the wrapped-model instance from them.  (For a model without
many-to-many fields and without reverse relations, that field list is
exactly the local fields.) -/
def wrap (m : Model) (r : StagingRecord) : Instance :=
  ⟨(m.local_fields.filter (fun f => decide (f.kind ≠ .auto))).map
    (fun f => (f.attname, getv r.values f.attname))⟩

/-- Errors surfacing from PartialStateMixin.shelve: the wrapped model's
clean() hook raising ValidationError, and the database raising
IntegrityError on the forced insert. -/
inductive ShelveError where
  | validationError
  | integrityError
  deriving DecidableEq, Repr

/-- A fresh value for an auto-incrementing identity column: one more than
the greatest value the table holds. -/
def fresh_pk (attname : String) (table : List Instance) : Int :=
  (table.foldl (fun acc o => max acc ((getv o.values attname).getD 0)) 0) + 1

/-- The wrapped table's NOT NULL constraints over the local columns: every
non-nullable, non-primary-key, non-auto column must hold a value. -/
def not_null_ok (m : Model) (obj : Instance) : Bool :=
  m.local_fields.all (fun f =>
    decide (f.kind = .auto) || f.primary_key || f.null ||
      (getv obj.values f.attname).isSome)

/-- The forced fresh INSERT of shelve - `save(force_insert=True)`, or
`save_base(force_insert=True, raw=True)` for a multi-table-inheritance
child (both insert into the model's own table; raw additionally skips the
parent-linkage logic, which touches no other row here).  The insert fails
with IntegrityError when a NOT NULL constraint is violated, when a non-auto
primary key holds no value, or when the primary-key slot is already
occupied; an AutoField primary key is assigned a fresh value by the store.
On success the new row is appended and also returned. -/
def force_insert (m : Model) (table : List Instance) (obj : Instance) :
    Except ShelveError (List Instance × Instance) :=
  if not_null_ok m obj then
    match m.pkField with
    | none => .error .integrityError
    | some p =>
      if p.kind = .auto then
        let saved : Instance :=
          ⟨setv obj.values p.attname (some (fresh_pk p.attname table))⟩
        .ok (table ++ [saved], saved)
      else
        match getv obj.values p.attname with
        | none => .error .integrityError
        | some pk =>
          if table.any (fun o => decide (getv o.values p.attname = some pk)) then
            .error .integrityError
          else .ok (table ++ [obj], obj)
  else .error .integrityError

/-- The database state the promotion engine touches: the wrapped model's
permanent table and the staging table. -/
structure Db where
  perm : List Instance
  staging : List StagingRecord
  deriving DecidableEq, Repr

/-- The default post_shelve_cleanup: self.delete(), which removes the row
with this record's primary key (partial_state_id) from the staging table. -/
def delete_staging (rows : List StagingRecord) (r : StagingRecord) :
    List StagingRecord :=
  rows.filter (fun x => decide (x.partial_state_id ≠ r.partial_state_id))

/-- PartialStateMixin.shelve: wrap, run the wrapped model's clean() hook
(the external validation collaborator, a parameter here), then inside
transaction.atomic() perform the forced insert and post_shelve_cleanup.
Django's transaction primitive commits the block as a whole or rolls every
write of the block back, so a failing insert leaves the database exactly as
it was; clean() runs before the transaction, so its failure also leaves the
database untouched.  Returns the database after the call and the saved
permanent instance or the error. -/
def shelve (m : Model) (validate : Instance → Bool) (db : Db)
    (r : StagingRecord) : Db × Except ShelveError Instance :=
  let w := wrap m r
  if validate w then
    match force_insert m db.perm w with
    | .ok (perm2, saved) =>
      ({ perm := perm2, staging := delete_staging db.staging r }, .ok saved)
    | .error e => (db, .error e)
  else (db, .error .validationError)

/-! Concrete fixtures mirroring src/tests/models.py, used by the witnesses
and counterexamples below. -/

/-- The implicit auto-incrementing id primary key Django adds to a model. -/
def fldAutoId : Field := ⟨"id", .auto, true, false, false, false, "", false⟩

/-- An IntegerField like TestA.column1 (non-nullable, plain). -/
def fldColumn1 : Field := ⟨"column1", .plain, false, false, false, false, "", false⟩

/-- A CharField like TestA.column2 (non-nullable, plain). -/
def fldColumn2 : Field := ⟨"column2", .plain, false, false, false, false, "", false⟩

/-- The TestA model of the test suite: implicit auto id plus two columns. -/
def mTestA : Model := mkModel "tests.testa" "tests_testa" 0
  [fldAutoId, fldColumn1, fldColumn2]

/-- A plain text field. -/
def fldTitle : Field := ⟨"title", .plain, false, false, false, false, "", false⟩

/-- A ManyToManyField declaration. -/
def fldTags : Field := ⟨"tags", .manyToMany, false, false, false, false, "tests.tag", false⟩

/-- A target with a many-to-many field: the input the spec says derivation
must reject. -/
def mArticle : Model := mkModel "tests.article" "tests_article" 0
  [fldAutoId, fldTitle, fldTags]

/-- A non-auto IntegerField(primary_key=True). -/
def fldCode : Field := ⟨"code", .plain, true, false, false, false, "", false⟩

/-- A target whose primary key is supplied by the caller (not an
AutoField). -/
def mCode : Model := mkModel "tests.coded" "tests_coded" 0 [fldCode, fldColumn1]

/-- The staging schema derived from mCode without a lifetime. -/
def sCode : StagingSchema where
  wrapped_model := mCode
  fields := [⟨"code", .plain, false, false, false, false, "", false⟩,
             ⟨"column1", .plain, false, true, false, false, "", false⟩]
  state_expires := false
  expiry_default := none
  db_table := "tests_coded_partialstate"
  ordering := ["-partial_state_id"]
  get_latest_by := "partial_state_id"

/-- The staging schema derived from mTestA without a lifetime. -/
def sTestA : StagingSchema where
  wrapped_model := mTestA
  fields := [⟨"column1", .plain, false, true, false, false, "", false⟩,
             ⟨"column2", .plain, false, true, false, false, "", false⟩]
  state_expires := false
  expiry_default := none
  db_table := "tests_testa_partialstate"
  ordering := ["-partial_state_id"]
  get_latest_by := "partial_state_id"

/-! Helper lemmas on the derivation loop. -/

/-- The loop body never raises the many-to-many ValueError: its only error
is the AttributeError of the unique-property assignment. -/
theorem copy_field_no_m2m_error (m : Model) (f : Field) :
    copy_field m f ≠ .error .unsupportedFieldKind := by
  intro h
  simp only [copy_field] at h
  split at h
  · cases h
  · split at h
    · injection h with h2
      cases h2
    · cases h

/-- On a list without many-to-many members the loop can fail only with the
unique-property AttributeError, never with UnsupportedFieldKind. -/
theorem copy_fields_list_no_m2m_error (m : Model) (l : List Field)
    (h : ∀ f ∈ l, f.kind ≠ .manyToMany) :
    copy_fields_list m l ≠ .error .unsupportedFieldKind := by
  induction l with
  | nil => intro hc; cases hc
  | cons g gs ih =>
    intro hc
    rw [copy_fields_list, if_neg (h g (List.mem_cons_self g gs))] at hc
    by_cases hga : g.kind = .auto
    · rw [if_pos hga] at hc
      exact ih (fun f hf => h f (List.mem_cons_of_mem g hf)) hc
    · rw [if_neg hga] at hc
      cases hcg : copy_field m g with
      | error e =>
        simp only [hcg] at hc
        injection hc with h2
        subst h2
        exact copy_field_no_m2m_error m g hcg
      | ok g2 =>
        simp only [hcg] at hc
        cases hrest : copy_fields_list m gs with
        | error e =>
          simp only [hrest] at hc
          injection hc with h2
          subst h2
          exact ih (fun f hf => h f (List.mem_cons_of_mem g hf)) hrest
        | ok rest =>
          simp only [hrest] at hc
          cases hc

/-- A failing loop body aborts the whole copy with its AttributeError,
when the list is many-to-many-free (the shape Django hands over). -/
theorem copy_fields_list_raises (m : Model) (l : List Field)
    (hm2m : ∀ g ∈ l, g.kind ≠ .manyToMany) (f : Field) (hmem : f ∈ l)
    (hauto : f.kind ≠ .auto)
    (hf : copy_field m f = .error .attributeError) :
    copy_fields_list m l = .error .attributeError := by
  induction l with
  | nil => cases hmem
  | cons g gs ih =>
    rw [copy_fields_list, if_neg (hm2m g (List.mem_cons_self g gs))]
    rw [List.mem_cons] at hmem
    by_cases hga : g.kind = .auto
    · rw [if_pos hga]
      rcases hmem with rfl | hmem
      · exact absurd hga hauto
      · exact ih (fun x hx => hm2m x (List.mem_cons_of_mem g hx)) hmem
    · rw [if_neg hga]
      rcases hmem with rfl | hmem
      · rw [hf]
      · cases hcg : copy_field m g with
        | error e =>
          cases e with
          | unsupportedFieldKind =>
            exact absurd hcg (copy_field_no_m2m_error m g)
          | attributeError => rfl
        | ok g2 =>
          rw [ih (fun x hx => hm2m x (List.mem_cons_of_mem g hx)) hmem]

/-- Every non-auto field of a successfully copied list contributes its
(successfully) transformed copy to the output. -/
theorem copy_fields_list_mem (m : Model) {l fs : List Field} {f f2 : Field}
    (hok : copy_fields_list m l = .ok fs) (hmem : f ∈ l)
    (hauto : f.kind ≠ .auto) (hcf : copy_field m f = .ok f2) : f2 ∈ fs := by
  induction l generalizing fs with
  | nil => cases hmem
  | cons g gs ih =>
    by_cases hm2m : g.kind = .manyToMany
    · simp [copy_fields_list, hm2m] at hok
    · by_cases hga : g.kind = .auto
      · rw [List.mem_cons] at hmem
        rcases hmem with rfl | hmem
        · exact absurd hga hauto
        · exact ih (by simpa [copy_fields_list, hm2m, hga] using hok) hmem
      · rw [copy_fields_list] at hok
        simp only [hm2m, hga, if_false] at hok
        rw [List.mem_cons] at hmem
        rcases hmem with rfl | hmem
        · simp only [hcf] at hok
          cases hrest : copy_fields_list m gs with
          | error e => simp [hrest] at hok
          | ok rest =>
            simp only [hrest, Except.ok.injEq] at hok
            subst hok
            exact List.mem_cons_self _ _
        · cases hcg : copy_field m g with
          | error e => simp [hcg] at hok
          | ok g2 =>
            simp only [hcg] at hok
            cases hrest : copy_fields_list m gs with
            | error e => simp [hrest] at hok
            | ok rest =>
              simp only [hrest, Except.ok.injEq] at hok
              subst hok
              exact List.mem_cons_of_mem _ (ih hrest hmem)

/-- Every output field of a successfully copied list is the successfully
transformed copy of a non-auto, non-many-to-many input field. -/
theorem copy_fields_list_src (m : Model) {l fs : List Field} {f2 : Field}
    (hok : copy_fields_list m l = .ok fs) (hmem : f2 ∈ fs) :
    ∃ f ∈ l, f.kind ≠ .auto ∧ f.kind ≠ .manyToMany ∧
      copy_field m f = .ok f2 := by
  induction l generalizing fs with
  | nil =>
    rw [copy_fields_list] at hok
    cases hok
    cases hmem
  | cons g gs ih =>
    by_cases hm2m : g.kind = .manyToMany
    · simp [copy_fields_list, hm2m] at hok
    · by_cases hga : g.kind = .auto
      · obtain ⟨f, hf, h1, h2, h3⟩ :=
          ih (by simpa [copy_fields_list, hm2m, hga] using hok) hmem
        exact ⟨f, List.mem_cons_of_mem _ hf, h1, h2, h3⟩
      · rw [copy_fields_list] at hok
        simp only [hm2m, hga, if_false] at hok
        cases hcg : copy_field m g with
        | error e => simp [hcg] at hok
        | ok g2 =>
          simp only [hcg] at hok
          cases hrest : copy_fields_list m gs with
          | error e => simp [hrest] at hok
          | ok rest =>
            simp only [hrest, Except.ok.injEq] at hok
            subst hok
            rw [List.mem_cons] at hmem
            rcases hmem with rfl | hmem
            · exact ⟨g, List.mem_cons_self _ _, hga, hm2m, hcg⟩
            · obtain ⟨f, hf, h1, h2, h3⟩ := ih hrest hmem
              exact ⟨f, List.mem_cons_of_mem _ hf, h1, h2, h3⟩

/-- A successful create_state_model call wraps the given model, clones its
fields via copy_fields, and records whether a lifetime was configured. -/
theorem create_state_model_ok {lt : Option Int} {dbt : Option String}
    {m : Model} {s : StagingSchema}
    (hs : create_state_model lt dbt m = .ok s) :
    s.wrapped_model = m ∧ copy_fields m = .ok s.fields ∧
      s.state_expires = lt.isSome := by
  unfold create_state_model at hs
  cases hcf : copy_fields m with
  | error e => rw [hcf] at hs; cases hs
  | ok fs =>
    rw [hcf] at hs
    simp only [Except.map, Except.ok.injEq] at hs
    subst hs
    exact ⟨rfl, rfl, rfl⟩

/-- Demotion changes only the primary_key and null flags. -/
theorem demote_preserves (f : Field) :
    (demote f).kind = f.kind ∧ (demote f).name = f.name ∧
      (demote f).to_ref = f.to_ref ∧ (demote f).unique = f.unique ∧
      (demote f).db_index = f.db_index := by
  unfold demote
  split <;> exact ⟨rfl, rfl, rfl, rfl, rfl⟩

/-- On a relational field the copy_fields loop body succeeds with exactly
the deconstruct-and-rebuild of the demoted copy. -/
theorem copy_field_eq_rebuild (m : Model) (f : Field)
    (hfk : f.kind = .foreignKey ∨ f.kind = .oneToOne) :
    copy_field m f = .ok (rebuild_fk m (demote f)) := by
  simp only [copy_field]
  rw [if_pos]
  rw [(demote_preserves f).1]
  exact hfk

/-- On a plain field carrying an explicit uniqueness constraint the
copy_fields loop body raises AttributeError: `field.unique = False` assigns
to the setterless unique property. -/
theorem copy_field_plain_unique_raises (m : Model) (f : Field)
    (hkind : f.kind = .plain) (huniq : f.unique = true) :
    copy_field m f = .error .attributeError := by
  rcases f with ⟨n, k, pk, nl, u, di, t, pl⟩
  cases hkind
  cases huniq
  cases pk <;> simp [copy_field, demote, Field.uniqueProp]

/-- A successful loop body keeps the field's name and attname (the one kind
change, OneToOneField to ForeignKey, keeps the name + "_id" shape). -/
theorem copy_field_ok_names (m : Model) {f f2 : Field}
    (h : copy_field m f = .ok f2) :
    f2.name = f.name ∧ f2.attname = f.attname := by
  have hkind := (demote_preserves f).1
  have hname := (demote_preserves f).2.1
  simp only [copy_field] at h
  split at h
  next hfk =>
    rw [hkind] at hfk
    injection h with h2
    subst h2
    refine ⟨hname, ?_⟩
    have ha1 : (rebuild_fk m (demote f)).attname = (demote f).name ++ "_id" := by
      simp [Field.attname, rebuild_fk]
    have ha2 : f.attname = f.name ++ "_id" := by
      simp only [Field.attname]
      rw [if_pos hfk]
    rw [ha1, ha2, hname]
  next hfk =>
    rw [hkind] at hfk
    split at h
    · cases h
    · injection h with h2
      subst h2
      refine ⟨hname, ?_⟩
      have ha1 : (demote f).attname = (demote f).name := by
        simp only [Field.attname]
        rw [if_neg]
        rw [hkind]
        exact hfk
      have ha2 : f.attname = f.name := by
        simp only [Field.attname]
        rw [if_neg hfk]
      rw [ha1, ha2, hname]

/-- C2 (code bug): for every configured lifetime and every clock value the
expiry-default callable raises AttributeError instead of returning
now + lifetime: __init__ stores the value as self.lifetime, while __call__
reads self.state_lifetime, an attribute that never exists. -/
theorem C2_expiry_default_raises (lifetime now : Int) :
    (ExpiryDefault.init lifetime).call now = .error .attributeError ∧
      (ExpiryDefault.init lifetime).call now ≠ .ok (now + lifetime) := by
  refine ⟨rfl, ?_⟩
  intro h
  rw [show (ExpiryDefault.init lifetime).call now =
      .error .attributeError from rfl] at h
  exact Except.noConfusion h

/-- C4 (code bug): the UnsupportedFieldKind guard is unreachable - Django
routes many-to-many fields away from local_concrete_fields, the list the
guard inspects, so no derivation of a Django-registered model ever fails
with that error (derivation can still crash with the unrelated
unique-property AttributeError); in particular the target mArticle, which
declares a many-to-many field "tags", is derived successfully and the
staging schema silently omits the field, where the claim says derivation
fails and no schema is produced. -/
theorem C4_m2m_guard_unreachable :
    (∀ (lt : Option Int) (dbt : Option String) (label table : String)
       (parents : Nat) (declared : List Field),
         create_state_model lt dbt (mkModel label table parents declared) ≠
           .error .unsupportedFieldKind) ∧
    create_state_model none none mArticle = .ok
      { wrapped_model := mArticle
        fields := [⟨"title", .plain, false, true, false, false, "", false⟩]
        state_expires := false
        expiry_default := none
        db_table := "tests_article_partialstate"
        ordering := ["-partial_state_id"]
        get_latest_by := "partial_state_id" } := by
  constructor
  · intro lt dbt label table parents declared hc
    have h : ∀ f ∈ (mkModel label table parents declared).local_concrete_fields,
        f.kind ≠ .manyToMany := by
      intro f hf
      simp only [mkModel, Model.local_concrete_fields, List.mem_filter] at hf
      simpa using hf.2
    unfold create_state_model at hc
    cases hcf : copy_fields (mkModel label table parents declared) with
    | ok fs =>
      rw [hcf] at hc
      simp [Except.map] at hc
    | error e =>
      rw [hcf] at hc
      simp only [Except.map] at hc
      injection hc with h2
      subst h2
      exact copy_fields_list_no_m2m_error _ _ h hcf
  · rfl

/-- C7: purge_expired raises TypeError (the spec's ConfigurationError) iff
the schema has expiry disabled, and then deletes nothing; with expiry
enabled it deletes exactly the rows whose expiry timestamp is strictly
before the call time, scanning the whole table, and every row whose expiry
is at or after the call time is still returned by the active queryset
afterwards. -/
theorem C7_purge_expired_spec (s : StagingSchema) (now : Int)
    (rows : List StagingRecord) :
    ((purge_expired s now rows).2.isSome ↔ s.state_expires = false) ∧
    (s.state_expires = false → purge_expired s now rows = (rows, some .typeError)) ∧
    (s.state_expires = true →
      (∀ r ∈ rows, (r ∈ (purge_expired s now rows).1 ↔
        expiry_lt_now now r = false)) ∧
      (∀ r ∈ (purge_expired s now rows).1, r ∈ rows) ∧
      (∀ r ∈ rows, ∀ e : Int, r.partial_state_expiry = some e → now ≤ e →
        r ∈ get_queryset s now (purge_expired s now rows).1)) := by
  by_cases hs : s.state_expires = true
  · refine ⟨?_, ?_, ?_⟩
    · simp [purge_expired, hs]
    · intro h
      rw [hs] at h
      cases h
    · intro _
      refine ⟨fun r hr => ?_, fun r hr => ?_, fun r hr e he hlt => ?_⟩
      · simp [purge_expired, hs, List.mem_filter, hr]
      · simp only [purge_expired, hs, if_true, List.mem_filter] at hr
        exact hr.1
      · have hkeep : expiry_lt_now now r = false := by
          simp only [expiry_lt_now, he, decide_eq_false_iff_not, not_lt]
          exact hlt
        have hact : kept_by_expiry_filter now r = true := by
          simp [kept_by_expiry_filter, he, hlt]
        simp [purge_expired, hs, get_queryset, List.mem_filter, hr, hkeep, hact]
  · have hs' : s.state_expires = false := by simpa using hs
    refine ⟨?_, ?_, ?_⟩
    · simp [purge_expired, hs']
    · intro _
      simp [purge_expired, hs']
    · intro h
      rw [h] at hs'
      cases hs'

/-- A ForeignKey declared with an explicit unique=True (what Django's
OneToOneField-recommending check W342 still allows). -/
def fldOwner : Field := ⟨"owner", .foreignKey, false, false, true, true, "tests.user", false⟩

/-- A target with a unique foreign key. -/
def mTicket : Model := mkModel "tests.ticket" "tests_ticket" 0
  [fldAutoId, fldOwner]

/-- C5 counterexample: deriving the target mTicket, whose field "owner" is a
foreign key carrying an explicit uniqueness constraint, yields a derived
field that is still unique - the `elif field.unique` branch only runs for
non-relational fields, and the ForeignKey rebuild keeps the deconstructed
unique kwarg.  The claim says every derived counterpart of a unique field is
not unique. -/
theorem C5_unique_fk_stays_unique :
    copy_fields mTicket = .ok
      [⟨"owner", .foreignKey, false, true, true, true, "tests.user", false⟩] ∧
    (⟨"owner", .foreignKey, false, true, true, true, "tests.user", false⟩ :
      Field).unique = true :=
  ⟨rfl, rfl⟩

/-- C5 amended: a target field carrying a uniqueness constraint never
yields the claimed non-unique indexed field except through the one-to-one
route.  A one-to-one field (Django's unique
relational declaration) derives to a field with the same name that is not
unique and keeps the foreign key's non-unique index.  Every other uniqueness
constraint breaks the rule: a non-relational field with an explicit
uniqueness constraint makes the whole derivation crash with AttributeError
(`field.unique = False` assigns to the setterless unique property), so no
derived field exists at all, and a plain ForeignKey declared unique keeps
its constraint (the counterexample). -/
theorem C5_unique_handling :
    (∀ (m : Model) (fs : List Field) (f : Field),
      copy_fields m = .ok fs → f ∈ m.local_concrete_fields →
      f.kind = .oneToOne → f.db_index = true →
      ∃ f2 ∈ fs, f2.name = f.name ∧ f2.unique = false ∧
        f2.db_index = true) ∧
    (∀ (m : Model) (f : Field),
      (∀ g ∈ m.local_concrete_fields, g.kind ≠ .manyToMany) →
      f ∈ m.local_concrete_fields → f.kind = .plain → f.unique = true →
      ∀ (lt : Option Int) (dbt : Option String),
        create_state_model lt dbt m = .error .attributeError) := by
  constructor
  · intro m fs f hok hmem hone hdi
    have hauto : f.kind ≠ .auto := by rw [hone]; intro h; cases h
    have hcf := copy_fields_list_mem m hok hmem hauto
      (copy_field_eq_rebuild m f (Or.inr hone))
    refine ⟨rebuild_fk m (demote f), hcf, (demote_preserves f).2.1, ?_, ?_⟩
    · show (if (demote f).kind = .oneToOne then false
          else (demote f).unique) = false
      rw [(demote_preserves f).1, hone]
      simp
    · show (demote f).db_index = true
      rw [(demote_preserves f).2.2.2.2, hdi]
  · intro m f hm2m hmem hkind huniq lt dbt
    have hauto : f.kind ≠ .auto := by rw [hkind]; intro h; cases h
    have hlist : copy_fields m = .error .attributeError :=
      copy_fields_list_raises m m.local_concrete_fields hm2m f hmem hauto
        (copy_field_plain_unique_raises m f hkind huniq)
    unfold create_state_model
    rw [hlist]
    rfl

/-- A unique plain field, like EmailField(unique=True). -/
def fldEmail : Field := ⟨"email", .plain, false, false, true, false, "", false⟩

/-- A target with a unique plain field: deriving it crashes. -/
def mAccount : Model := mkModel "tests.account" "tests_account" 0
  [fldAutoId, fldEmail]

/-- A OneToOneField (Django declares it with unique=True implied). -/
def fldSpouse : Field := ⟨"spouse", .oneToOne, false, true, true, true, "tests.human", false⟩

/-- A target with a one-to-one field. -/
def mHuman : Model := mkModel "tests.human" "tests_human" 0
  [fldAutoId, fldSpouse]

/-- The copies derived from mHuman: the one-to-one became a plain,
non-unique ForeignKey. -/
def humanCopies : List Field :=
  [⟨"spouse", .foreignKey, false, true, false, true, "tests.human", false⟩]

/-- C5 witness: the amended statement evaluated concretely - the one-to-one
target mHuman yields a non-unique indexed copy, and the unique-plain-field
target mAccount crashes derivation with AttributeError. -/
theorem C5_unique_handling_witness :
    (∃ f2 ∈ humanCopies, f2.name = fldSpouse.name ∧ f2.unique = false ∧
      f2.db_index = true) ∧
    create_state_model none none mAccount = .error .attributeError :=
  ⟨C5_unique_handling.1 mHuman humanCopies fldSpouse rfl (by decide) rfl rfl,
    C5_unique_handling.2 mAccount fldEmail (by decide) (by decide) rfl rfl
      none none⟩

/-- C6: for every relational target field that refers to the target schema
itself (to='self'), the derived field is a ForeignKey whose reference was
rewritten to the wrapped target model - not left at 'self' (which on the
generated class would mean the staging model) and not pointed at the staging
table. -/
theorem C6_self_fk_targets_wrapped (m : Model) (fs : List Field) (f : Field)
    (hok : copy_fields m = .ok fs) (hmem : f ∈ m.local_concrete_fields)
    (hfk : f.kind = .foreignKey ∨ f.kind = .oneToOne)
    (hself : f.to_ref = "self") :
    ∃ f2 ∈ fs, f2.name = f.name ∧ f2.kind = .foreignKey ∧
      f2.to_ref = m.label := by
  have hauto : f.kind ≠ .auto := by
    rcases hfk with h | h <;> rw [h] <;> intro h2 <;> cases h2
  have hcf := copy_fields_list_mem m hok hmem hauto
    (copy_field_eq_rebuild m f hfk)
  refine ⟨rebuild_fk m (demote f), hcf, ?_, rfl, ?_⟩
  · show (demote f).name = f.name
    exact (demote_preserves f).2.1
  · show (if (demote f).to_ref = "self" then m.label else (demote f).to_ref) = m.label
    rw [(demote_preserves f).2.2.1, hself]
    simp

/-- A self-referencing foreign key, like ForeignKey('self', null=True). -/
def fldBoss : Field := ⟨"boss", .foreignKey, false, true, false, true, "self", false⟩

/-- A target with a self-referencing foreign key. -/
def mEmployee : Model := mkModel "tests.employee" "tests_employee" 0
  [fldAutoId, fldBoss]

/-- The copies derived from mEmployee: the self reference now names the
wrapped target model. -/
def employeeCopies : List Field :=
  [⟨"boss", .foreignKey, false, true, false, true, "tests.employee", false⟩]

/-- C6 witness: the statement evaluated on the concrete self-referencing
target mEmployee. -/
theorem C6_self_fk_witness :
    copy_fields mEmployee = .ok employeeCopies ∧
    fldBoss ∈ mEmployee.local_concrete_fields ∧
    (∃ f2 ∈ employeeCopies, f2.name = fldBoss.name ∧ f2.kind = .foreignKey ∧
      f2.to_ref = mEmployee.label) :=
  ⟨rfl, by decide,
    C6_self_fk_targets_wrapped mEmployee employeeCopies fldBoss rfl (by decide)
      (Or.inl rfl) rfl⟩

/-- C10: for every one-to-one target field, the derived field is a plain
(many-to-one) ForeignKey and is not unique - the one-to-one character is
dropped by the class conversion, so nothing stops several staging rows from
referencing the same remote record. -/
theorem C10_one_to_one_becomes_fk (m : Model) (fs : List Field) (f : Field)
    (hok : copy_fields m = .ok fs) (hmem : f ∈ m.local_concrete_fields)
    (hone : f.kind = .oneToOne) :
    ∃ f2 ∈ fs, f2.name = f.name ∧ f2.kind = .foreignKey ∧
      f2.unique = false := by
  have hauto : f.kind ≠ .auto := by rw [hone]; intro h; cases h
  have hcf := copy_fields_list_mem m hok hmem hauto
    (copy_field_eq_rebuild m f (Or.inr hone))
  refine ⟨rebuild_fk m (demote f), hcf, (demote_preserves f).2.1, rfl, ?_⟩
  show (if (demote f).kind = .oneToOne then false else (demote f).unique) = false
  rw [(demote_preserves f).1, hone]
  simp

/-- C10 witness: the statement evaluated on the concrete one-to-one target
mHuman. -/
theorem C10_one_to_one_witness :
    copy_fields mHuman = .ok humanCopies ∧
    fldSpouse ∈ mHuman.local_concrete_fields ∧
    (∃ f2 ∈ humanCopies, f2.name = fldSpouse.name ∧ f2.kind = .foreignKey ∧
      f2.unique = false) :=
  ⟨rfl, by decide,
    C10_one_to_one_becomes_fk mHuman humanCopies fldSpouse rfl (by decide) rfl⟩

/-- The shape of by_true_pk once the wrapped model's primary-key field is
known. -/
theorem by_true_pk_eq (s : StagingSchema) (now : Int)
    (rows : List StagingRecord) (pk : Int) (p : Field)
    (hpk : s.wrapped_model.pkField = some p) :
    by_true_pk s now rows pk =
      if p.attname ∈ staging_lookup_names s then
        match latest_rec ((get_queryset s now rows).filter
            (fun r => decide (getv r.values p.attname = some pk))) with
        | some r => .ok r
        | none => .error .doesNotExist
      else .error .fieldError := by
  unfold by_true_pk
  rw [hpk]

/-- C3: on a target whose primary key is an auto-generated identity field,
by_true_pk fails for every argument and every table state - the primary-key
attname is no column of the staging model (AutoFields are skipped by
copy_fields and the copies keep their names and attnames), so the filter
keyword raises FieldError (the spec's UnsupportedOperation) while the query
is built, before any row is consulted.  The freshness hypotheses say the
target is a well-formed Django model: no other field or synthetic staging
column shares the primary key's attname. -/
theorem C3_by_true_pk_auto_pk_fails (m : Model) (lt : Option Int)
    (dbt : Option String) (s : StagingSchema) (p : Field)
    (hs : create_state_model lt dbt m = .ok s)
    (hpk : m.pkField = some p) (hauto : p.kind = .auto)
    (hfresh : ∀ f ∈ m.local_concrete_fields, f.kind ≠ .auto →
      f.name ≠ p.attname ∧ f.attname ≠ p.attname)
    (hsynth1 : p.attname ≠ "partial_state_id")
    (hsynth2 : p.attname ≠ "partial_state_expiry") :
    ∀ (now : Int) (rows : List StagingRecord) (pk : Int),
      by_true_pk s now rows pk = .error .fieldError := by
  obtain ⟨hw, hcf, _⟩ := create_state_model_ok hs
  have hnot : p.attname ∉ staging_lookup_names s := by
    intro hmm
    unfold staging_lookup_names at hmm
    simp only [List.mem_append] at hmm
    rcases hmm with ((h1 | h2) | h3) | h4
    · rw [List.mem_map] at h1
      obtain ⟨f2, hf2, hname⟩ := h1
      obtain ⟨f, hf, hfa, _, hcg⟩ := copy_fields_list_src m hcf hf2
      exact (hfresh f hf hfa).1
        (by rw [← (copy_field_ok_names m hcg).1]; exact hname)
    · rw [List.mem_map] at h2
      obtain ⟨f2, hf2, hname⟩ := h2
      obtain ⟨f, hf, hfa, _, hcg⟩ := copy_fields_list_src m hcf hf2
      exact (hfresh f hf hfa).2
        (by rw [← (copy_field_ok_names m hcg).2]; exact hname)
    · rw [List.mem_singleton] at h3
      exact hsynth1 h3
    · rcases hse : s.state_expires with _ | _ <;> rw [hse] at h4
      · cases h4
      · rw [if_pos rfl, List.mem_singleton] at h4
        exact hsynth2 h4
  intro now rows pk
  rw [by_true_pk_eq s now rows pk p (by rw [hw]; exact hpk), if_neg hnot]

/-- C3 witness: the statement evaluated on the concrete target mTestA,
whose primary key is the implicit auto id. -/
theorem C3_by_true_pk_auto_witness :
    create_state_model none none mTestA = .ok sTestA ∧
    mTestA.pkField = some fldAutoId ∧ fldAutoId.kind = .auto ∧
    (∀ (now : Int) (rows : List StagingRecord) (pk : Int),
      by_true_pk sTestA now rows pk = .error .fieldError) :=
  ⟨rfl, rfl, rfl,
    C3_by_true_pk_auto_pk_fails mTestA none none sTestA fldAutoId rfl rfl rfl
      (by decide) (by decide) (by decide)⟩

/-- QuerySet.latest() on a nonempty list returns a member whose
partial_state_id is maximal. -/
theorem latest_rec_spec (a : StagingRecord) (l : List StagingRecord) :
    ∃ r, latest_rec (a :: l) = some r ∧ r ∈ a :: l ∧
      ∀ x ∈ a :: l, sid x ≤ sid r := by
  induction l generalizing a with
  | nil =>
    refine ⟨a, rfl, List.mem_singleton_self a, ?_⟩
    intro x hx
    rw [List.mem_singleton] at hx
    subst hx
    exact le_refl _
  | cons b l2 ih =>
    obtain ⟨r2, hr2, hmem2, hmax2⟩ := ih b
    by_cases hlt : sid r2 < sid a
    · refine ⟨a, ?_, List.mem_cons_self _ _, ?_⟩
      · rw [latest_rec, hr2]
        simp [hlt]
      · intro x hx
        rw [List.mem_cons] at hx
        rcases hx with rfl | hx
        · exact le_refl _
        · exact le_trans (hmax2 x hx) (le_of_lt hlt)
    · refine ⟨r2, ?_, List.mem_cons_of_mem _ hmem2, ?_⟩
      · rw [latest_rec, hr2]
        simp [hlt]
      · intro x hx
        rw [List.mem_cons] at hx
        rcases hx with rfl | hx
        · exact le_of_not_lt hlt
        · exact hmax2 x hx

/-- C8: when at least one active staging row carries the given target
primary-key value, by_true_pk returns a matching active row of maximal
partial_state_id (the last-writer-wins read policy); with exactly two
matching rows this is the one with the higher staging id. -/
theorem C8_by_true_pk_returns_latest (s : StagingSchema) (now : Int)
    (rows : List StagingRecord) (pk : Int) (p : Field)
    (hpk : s.wrapped_model.pkField = some p)
    (hname : p.attname ∈ staging_lookup_names s)
    (hmatch : ∃ r ∈ get_queryset s now rows,
      getv r.values p.attname = some pk) :
    ∃ r, by_true_pk s now rows pk = .ok r ∧
      r ∈ get_queryset s now rows ∧ getv r.values p.attname = some pk ∧
      ∀ r2 ∈ get_queryset s now rows, getv r2.values p.attname = some pk →
        sid r2 ≤ sid r := by
  obtain ⟨r0, hr0, hv0⟩ := hmatch
  have hmemf : r0 ∈ (get_queryset s now rows).filter
      (fun r => decide (getv r.values p.attname = some pk)) :=
    List.mem_filter.mpr ⟨hr0, by simp [hv0]⟩
  cases hfl : (get_queryset s now rows).filter
      (fun r => decide (getv r.values p.attname = some pk)) with
  | nil => rw [hfl] at hmemf; cases hmemf
  | cons a l =>
    obtain ⟨r, hr, hmem, hmax⟩ := latest_rec_spec a l
    have hmem2 : r ∈ (get_queryset s now rows).filter
        (fun r => decide (getv r.values p.attname = some pk)) := by
      rw [hfl]; exact hmem
    refine ⟨r, ?_, (List.mem_filter.mp hmem2).1, ?_, ?_⟩
    · rw [by_true_pk_eq s now rows pk p hpk, if_pos hname, hfl, hr]
    · have := (List.mem_filter.mp hmem2).2
      simpa using this
    · intro r2 hr2 hv2
      have : r2 ∈ a :: l := by
        rw [← hfl]
        exact List.mem_filter.mpr ⟨hr2, by simp [hv2]⟩
      exact hmax r2 this

/-- A staging row carrying target pk 7 with staging id 1. -/
def recCode1 : StagingRecord := ⟨some 1, none, [("code", some 7)]⟩

/-- A second staging row carrying the same target pk 7, staging id 2. -/
def recCode2 : StagingRecord := ⟨some 2, none, [("code", some 7)]⟩

/-- C8 witness: the statement evaluated on the concrete schema sCode with
two staging rows claiming the same target primary key. -/
theorem C8_by_true_pk_witness :
    sCode.wrapped_model.pkField = some fldCode ∧
    fldCode.attname ∈ staging_lookup_names sCode ∧
    (∃ r ∈ get_queryset sCode 0 [recCode1, recCode2],
      getv r.values fldCode.attname = some 7) ∧
    (∃ r, by_true_pk sCode 0 [recCode1, recCode2] 7 = .ok r ∧
      r ∈ get_queryset sCode 0 [recCode1, recCode2] ∧
      getv r.values fldCode.attname = some 7 ∧
      ∀ r2 ∈ get_queryset sCode 0 [recCode1, recCode2],
        getv r2.values fldCode.attname = some 7 → sid r2 ≤ sid r) :=
  ⟨rfl, by decide, by decide,
    C8_by_true_pk_returns_latest sCode 0 [recCode1, recCode2] 7 fldCode rfl
      (by decide) (by decide)⟩

/-- Reading a key from a cons cell of an attname-keyed value list. -/
theorem getv_cons (a : String) (v : Option Int) (vs : List (String × Option Int))
    (k : String) :
    getv ((a, v) :: vs) k = if a = k then v else getv vs k := by
  by_cases h : a = k
  · rw [if_pos h]
    unfold getv
    rw [List.find?_cons_of_pos _ (by simp [h])]
  · rw [if_neg h]
    unfold getv
    rw [List.find?_cons_of_neg _ (by simp [h])]

/-- Reading a field's attname from the projection the descriptor builds
gives the projected instance value. -/
theorem getv_descriptor_values (vs : List (String × Option Int))
    (ks : List Field) (f : Field) (hmem : f ∈ ks) :
    getv (ks.map (fun g => (g.attname, getv vs g.attname))) f.attname =
      getv vs f.attname := by
  induction ks with
  | nil => cases hmem
  | cons g gs ih =>
    rw [List.map_cons, getv_cons]
    by_cases hg : g.attname = f.attname
    · rw [if_pos hg, hg]
    · rw [if_neg hg]
      rw [List.mem_cons] at hmem
      rcases hmem with rfl | hmem
      · exact absurd rfl hg
      · exact ih hmem

/-- The staging schema derived from mCode with a lifetime of 3. -/
def sCodeLife : StagingSchema where
  wrapped_model := mCode
  fields := [⟨"code", .plain, false, false, false, false, "", false⟩,
             ⟨"column1", .plain, false, true, false, false, "", false⟩]
  state_expires := true
  expiry_default := some ⟨[("lifetime", 3)]⟩
  db_table := "tests_coded_partialstate"
  ordering := ["-partial_state_id"]
  get_latest_by := "partial_state_id"

/-- A saved permanent-model instance of mCode. -/
def instCode : Instance := ⟨[("code", some 7), ("column1", some 5)]⟩

/-- C9 counterexample: on the staging schema derived from mCode with a
lifetime, accessing the descriptor on an instance raises AttributeError
instead of returning a staging record - the constructor evaluates the
partial_state_expiry default, which is the broken ExpiryDefault callable. -/
theorem C9_descriptor_expiry_raises :
    create_state_model (some 3) none mCode = .ok sCodeLife ∧
    descriptor_get_instance sCodeLife 100 instCode = .error .attributeError :=
  ⟨rfl, rfl⟩

/-- C9 amended: on a staging schema without an expiry default, accessing
the descriptor on a wrapped-model instance returns a new staging record
that is unsaved (partial_state_id is None) and whose value for every local
non-auto concrete field of the target equals that instance's value;
schemas with a lifetime are excluded because there the expiry default
raises (see the counterexample and C2). -/
theorem C9_descriptor_prepopulates (s : StagingSchema) (now : Int)
    (inst : Instance) (hexp : s.expiry_default = none) :
    ∃ r, descriptor_get_instance s now inst = .ok r ∧
      r.partial_state_id = none ∧
      ∀ f ∈ s.wrapped_model.local_concrete_fields, f.kind ≠ .auto →
        getv r.values f.attname = getv inst.values f.attname := by
  refine ⟨⟨none, none, descriptor_get_values s.wrapped_model inst⟩, ?_, rfl, ?_⟩
  · unfold descriptor_get_instance
    rw [hexp]
  · intro f hf hauto
    show getv (descriptor_get_values s.wrapped_model inst) f.attname =
      getv inst.values f.attname
    unfold descriptor_get_values
    exact getv_descriptor_values inst.values _ f
      (List.mem_filter.mpr ⟨hf, by simp [hauto]⟩)

/-- C9 witness: the amended statement evaluated on the concrete
lifetime-free schema sCode and the instance instCode. -/
theorem C9_descriptor_witness :
    sCode.expiry_default = none ∧
    (∃ r, descriptor_get_instance sCode 100 instCode = .ok r ∧
      r.partial_state_id = none ∧
      ∀ f ∈ sCode.wrapped_model.local_concrete_fields, f.kind ≠ .auto →
        getv r.values f.attname = getv instCode.values f.attname) :=
  ⟨rfl, C9_descriptor_prepopulates sCode 100 instCode rfl⟩

/-- The shape of force_insert once the wrapped model's primary-key field is
known. -/
theorem force_insert_eq (m : Model) (table : List Instance) (obj : Instance)
    (p : Field) (hpk : m.pkField = some p) :
    force_insert m table obj =
      (if not_null_ok m obj then
        if p.kind = .auto then
          .ok (table ++
              [⟨setv obj.values p.attname (some (fresh_pk p.attname table))⟩],
            ⟨setv obj.values p.attname (some (fresh_pk p.attname table))⟩)
        else
          match getv obj.values p.attname with
          | none => .error .integrityError
          | some pk =>
            if table.any (fun o => decide (getv o.values p.attname = some pk))
            then .error .integrityError
            else .ok (table ++ [obj], obj)
      else .error .integrityError) := by
  unfold force_insert
  rw [hpk]

/-- A successful forced insert appends exactly the returned row to the
table. -/
theorem force_insert_append {m : Model} {table t2 : List Instance}
    {obj saved : Instance} {p : Field} (hpk : m.pkField = some p)
    (h : force_insert m table obj = .ok (t2, saved)) :
    t2 = table ++ [saved] := by
  rw [force_insert_eq m table obj p hpk] at h
  by_cases hnn : not_null_ok m obj = true
  · rw [if_pos hnn] at h
    by_cases ha : p.kind = .auto
    · rw [if_pos ha] at h
      injection h with h2
      injection h2 with h3 h4
      subst h4
      exact h3.symm
    · rw [if_neg ha] at h
      cases hg : getv obj.values p.attname with
      | none =>
        simp only [hg] at h
        exact Except.noConfusion h
      | some pk =>
        simp only [hg] at h
        by_cases hany : table.any
            (fun o => decide (getv o.values p.attname = some pk)) = true
        · rw [if_pos hany] at h
          cases h
        · rw [if_neg hany] at h
          injection h with h2
          injection h2 with h3 h4
          subst h4
          exact h3.symm
  · rw [if_neg hnn] at h
    cases h

/-- The promoted record itself never survives its own deletion. -/
theorem delete_staging_not_mem (rows : List StagingRecord)
    (r : StagingRecord) : r ∉ delete_staging rows r := by
  intro h
  have h2 := (List.mem_filter.mp h).2
  simp at h2

/-- A row with a different staging id survives the deletion. -/
theorem delete_staging_keeps (rows : List StagingRecord)
    (r s2 : StagingRecord) (h : s2 ∈ rows)
    (hne : s2.partial_state_id ≠ r.partial_state_id) :
    s2 ∈ delete_staging rows r :=
  List.mem_filter.mpr ⟨h, by simp [hne]⟩

/-- With pairwise-distinct staging ids, deleting a member removes exactly
one row. -/
theorem delete_staging_length (rows : List StagingRecord) (r : StagingRecord)
    (hmem : r ∈ rows)
    (hdist : rows.Pairwise
      (fun a b => a.partial_state_id ≠ b.partial_state_id)) :
    (delete_staging rows r).length + 1 = rows.length := by
  induction rows with
  | nil => cases hmem
  | cons a l ih =>
    rw [List.pairwise_cons] at hdist
    obtain ⟨ha, hdist2⟩ := hdist
    rw [List.mem_cons] at hmem
    rcases hmem with rfl | hmem
    · unfold delete_staging
      rw [List.filter_cons_of_neg (by simp)]
      have hall : List.filter
          (fun x => decide (x.partial_state_id ≠ r.partial_state_id)) l = l :=
        List.filter_eq_self.mpr (fun x hx => by
          simp only [decide_eq_true_eq]
          exact fun hcon => (ha x hx) hcon.symm)
      rw [hall, List.length_cons]
    · have hane : a.partial_state_id ≠ r.partial_state_id := ha r hmem
      unfold delete_staging
      rw [List.filter_cons_of_pos (by simp [hane])]
      have h2 := ih hmem hdist2
      unfold delete_staging at h2
      simp only [List.length_cons]
      omega

/-- C1: shelve is all-or-nothing.  When the call returns an error - from
validation or from the forced insert inside the transaction - the database
is exactly as before: the permanent table is unchanged and the staging
record is still present, unmodified.  When it returns a saved instance, the
permanent table gained exactly that one new row and the staging table lost
exactly the promoted record, every other staging row surviving. -/
theorem C1_shelve_all_or_nothing (m : Model) (validate : Instance → Bool)
    (db : Db) (r : StagingRecord) (p : Field)
    (hpk : m.pkField = some p) (hmem : r ∈ db.staging)
    (hdist : db.staging.Pairwise
      (fun a b => a.partial_state_id ≠ b.partial_state_id)) :
    ∀ (db2 : Db) (res : Except ShelveError Instance),
      shelve m validate db r = (db2, res) →
      (∀ e, res = .error e → db2 = db) ∧
      (∀ saved, res = .ok saved →
        db2.perm = db.perm ++ [saved] ∧
        db2.staging.length + 1 = db.staging.length ∧
        r ∉ db2.staging ∧
        ∀ s2 ∈ db.staging, s2 ≠ r → s2 ∈ db2.staging) := by
  intro db2 res hrun
  simp only [shelve] at hrun
  by_cases hv : validate (wrap m r) = true
  · rw [if_pos hv] at hrun
    cases hins : force_insert m db.perm (wrap m r) with
    | error e =>
      simp only [hins] at hrun
      injection hrun with h1 h2
      subst h1
      subst h2
      constructor
      · intro e2 _
        rfl
      · intro saved hok
        cases hok
    | ok pr =>
      obtain ⟨perm2, saved0⟩ := pr
      simp only [hins] at hrun
      injection hrun with h1 h2
      subst h1
      subst h2
      constructor
      · intro e hcon
        cases hcon
      · intro saved hok
        injection hok with hsv
        subst hsv
        refine ⟨force_insert_append hpk hins, ?_, ?_, ?_⟩
        · exact delete_staging_length db.staging r hmem hdist
        · exact delete_staging_not_mem db.staging r
        · intro s2 hs2 hne
          refine delete_staging_keeps db.staging r s2 hs2 ?_
          have hsymm : Symmetric
              (fun a b : StagingRecord =>
                a.partial_state_id ≠ b.partial_state_id) :=
            fun a b h => h.symm
          exact hdist.forall hsymm hs2 hmem hne
  · rw [if_neg hv] at hrun
    injection hrun with h1 h2
    subst h1
    subst h2
    constructor
    · intro e _
      rfl
    · intro saved hok
      cases hok

/-- A staging row of mTestA with both columns filled in. -/
def recTestA : StagingRecord :=
  ⟨some 1, none, [("column1", some 5), ("column2", some 7)]⟩

/-- A database holding an empty permanent table and the one staging row. -/
def dbTestA : Db := ⟨[], [recTestA]⟩

/-- C1 witness: the statement evaluated on the concrete target mTestA, an
always-accepting validation hook and the one-row staging table. -/
theorem C1_shelve_witness :
    mTestA.pkField = some fldAutoId ∧
    recTestA ∈ dbTestA.staging ∧
    dbTestA.staging.Pairwise
      (fun a b => a.partial_state_id ≠ b.partial_state_id) ∧
    (∀ (db2 : Db) (res : Except ShelveError Instance),
      shelve mTestA (fun _ => true) dbTestA recTestA = (db2, res) →
      (∀ e, res = .error e → db2 = dbTestA) ∧
      (∀ saved, res = .ok saved →
        db2.perm = dbTestA.perm ++ [saved] ∧
        db2.staging.length + 1 = dbTestA.staging.length ∧
        recTestA ∉ db2.staging ∧
        ∀ s2 ∈ dbTestA.staging, s2 ≠ recTestA → s2 ∈ db2.staging)) :=
  ⟨rfl, by decide, by decide,
    C1_shelve_all_or_nothing mTestA (fun _ => true) dbTestA recTestA fldAutoId
      rfl (by decide) (by decide)⟩

end PartialState
